import Mathlib

/-!
PKCE OAuth authenticator (`decap-cms-lib-auth/src/pkce-oauth.js`).

A shallow embedding of the PKCE authenticator: the verifier and challenge
generators, the endpoint resolver `_loadOidcConfig`, and the two legs of the
flow, `authenticate` and `completeAuth`.

Platform services (random bytes, SHA-256, `JSON.parse`, `URL`, `fetch`,
session storage, the page location) and the helpers imported from `./utils`
are inputs of the model, gathered in `Env`. The asynchronous functions run on
a single thread and every `await` is a one-shot suspension, so they are
embedded as sequential functions that return the list of observable events,
the final state and how the call ended (returned, or an exception escaped).
-/

namespace PkceOAuth

/-! ## Verifier and challenge generation -/

/-- The constant `chars` of `generateVerifierCode`. -/
def chars : List Char :=
  "abcdefghijklmnopqrstuvwxyzABCDEFGHIJKLMNOPQRSTUVWXYZ0123456789-.".toList

/-- The callback of the `.map` in `generateVerifierCode`: `chars[val % chars.length]`,
which is `undefined` (here `none`) when the index is out of range. -/
def verifierChar (val : Fin 256) : Option Char :=
  chars[val.val % chars.length]?

/-- The `join` of an array of single characters, an `undefined` entry giving
the empty string. -/
def joinChars : List (Option Char) → List Char
  | [] => []
  | some c :: rest => c :: joinChars rest
  | none :: rest => joinChars rest

/-- The function `generateVerifierCode`, on the bytes that
`window.crypto.getRandomValues(new Uint8Array(128))` delivered. -/
def generateVerifierCode (randomValues : List (Fin 256)) : String :=
  String.mk (joinChars (randomValues.map verifierChar))

/-- The unreserved characters `A-Z a-z 0-9 - .`. -/
def isVerifierAlphabet (c : Char) : Bool :=
  (65 ≤ c.toNat && c.toNat ≤ 90) || (97 ≤ c.toNat && c.toNat ≤ 122) ||
    (48 ≤ c.toNat && c.toNat ≤ 57) || c.toNat == 45 || c.toNat == 46

/-- The function `sha256`: the digest bytes turned into a binary string by
`String.fromCharCode`. The hash primitive itself is the parameter `digest`. -/
def sha256 (digest : String → List (Fin 256)) (text : String) : String :=
  String.mk ((digest text).map (fun b => Char.ofNat b.val))

/-- The alphabet of standard base64. -/
def b64chars : List Char :=
  "ABCDEFGHIJKLMNOPQRSTUVWXYZabcdefghijklmnopqrstuvwxyz0123456789+/".toList

/-- The base64 digit of a six-bit value. -/
def b64char (i : Nat) : Char :=
  b64chars.getD i (Char.ofNat 0)

/-- Standard base64 of a byte sequence, three bytes to four digits, padded with
the equals sign. -/
def btoaBytes : List Nat → List Char
  | a :: b :: c :: rest =>
      b64char (a / 4) :: b64char ((a % 4) * 16 + b / 16) ::
        b64char ((b % 16) * 4 + c / 64) :: b64char (c % 64) :: btoaBytes rest
  | [a, b] =>
      [b64char (a / 4), b64char ((a % 4) * 16 + b / 16), b64char ((b % 16) * 4), Char.ofNat 61]
  | [a] => [b64char (a / 4), b64char ((a % 4) * 16), Char.ofNat 61, Char.ofNat 61]
  | [] => []

/-- The platform function `btoa`: it throws (here `none`) on a character above
code 255 and otherwise gives the base64 of the character codes. -/
def btoa (s : String) : Option String :=
  if s.data.all (fun c => decide (c.toNat < 256)) then
    some (String.mk (btoaBytes (s.data.map Char.toNat)))
  else none

/-- The expression `x.split('=')[0]`: what precedes the first equals sign. -/
def splitEqHead (s : List Char) : List Char :=
  s.takeWhile (fun c => c != Char.ofNat 61)

/-- The expression `x.replace(/\+/g, '-')`. -/
def replacePlus (s : List Char) : List Char :=
  s.map (fun c => if c = Char.ofNat 43 then Char.ofNat 45 else c)

/-- The expression `x.replace(/\//g, '_')`. -/
def replaceSlash (s : List Char) : List Char :=
  s.map (fun c => if c = Char.ofNat 47 then Char.ofNat 95 else c)

/-- The function `createCodeChallenge`; `none` stands for an exception of `btoa`. -/
def createCodeChallenge (digest : String → List (Fin 256)) (codeVerifier : String) :
    Option String :=
  match btoa (sha256 digest codeVerifier) with
  | some b => some (String.mk (replaceSlash (replacePlus (splitEqHead b.data))))
  | none => none

/-- The base64url alphabet `A-Z a-z 0-9 - _`. -/
def isBase64Url (c : Char) : Bool :=
  (65 ≤ c.toNat && c.toNat ≤ 90) || (97 ≤ c.toNat && c.toNat ≤ 122) ||
    (48 ≤ c.toNat && c.toNat ≤ 57) || c.toNat == 45 || c.toNat == 95

/-- The challenge in the words of RFC 7636: the standard base64 of the digest
with the padding removed, plus replaced by minus and slash by underscore. -/
def base64UrlNoPad (bytes : List (Fin 256)) : String :=
  String.mk (((btoaBytes (bytes.map Fin.val)).filter (fun c => c != Char.ofNat 61)).map
    (fun c => if c = Char.ofNat 43 then Char.ofNat 45
      else if c = Char.ofNat 47 then Char.ofNat 95 else c))

/-! ## JavaScript values -/

/-- JSON values, as `JSON.parse` and `response.json()` deliver them. A number
is carried as an opaque integer: the program only ever tests one for being zero. -/
inductive JSON where
  | null
  | bool (b : Bool)
  | num (n : Int)
  | str (s : String)
  | arr (items : List JSON)
  | obj (fields : List (String × JSON))

/-- A JavaScript value that is either `undefined` (`none`) or a JSON value. -/
abbrev JSVal := Option JSON

/-- What can be thrown, or can reject a promise. -/
inductive JSError where
  | error (message : String)
  | typeError
  | syntaxError
  | networkError
  deriving DecidableEq

/-- JavaScript truthiness, as tested by `&&`, `!` and `if`. -/
def truthy : JSVal → Bool
  | none => false
  | some JSON.null => false
  | some (JSON.bool b) => b
  | some (JSON.num n) => n != 0
  | some (JSON.str s) => decide (s ≠ "")
  | some (JSON.arr _) => true
  | some (JSON.obj _) => true

/-- Property read `v.name` for the names the program reads (`nonce`,
`access_token`, `authorization_endpoint`, `token_endpoint`): a TypeError on
`null`, the field of an object, and `undefined` on every other value. -/
def getProp (v : JSON) (name : String) : Except JSError JSVal :=
  match v with
  | JSON.null => Except.error JSError.typeError
  | JSON.obj fields => Except.ok (fields.lookup name)
  | _ => Except.ok none

/-- The own enumerable properties that an object spread `...v` copies. -/
def ownEntries : JSON → List (String × JSON)
  | JSON.obj fields => fields
  | JSON.arr items => items.enum.map (fun p => (toString p.1, p.2))
  | JSON.str s => s.data.enum.map (fun p => (toString p.1, JSON.str (String.singleton p.2)))
  | _ => []

/-- Assignment of a property of an object literal under construction. -/
def objSet {α : Type} : List (String × α) → String → α → List (String × α)
  | [], k, v => [(k, v)]
  | (k1, v1) :: rest, k, v =>
      if k1 = k then (k, v) :: rest else (k1, v1) :: objSet rest k v

/-- The object literal `{ token: tok, ...data }`. -/
def spreadToken (tok : JSVal) (data : JSON) : List (String × JSVal) :=
  (ownEntries data).foldl (fun acc p => objSet acc p.1 (some p.2)) [("token", tok)]

/-- A string interpolated or converted where `null` may stand. -/
def strOrNull : Option String → String
  | some s => s
  | none => "null"

/-- A string converted where `undefined` may stand. -/
def strOrUndefined : Option String → String
  | some s => s
  | none => "undefined"

/-- A value that is a string or `null`. -/
def valOrNull : Option String → JSVal
  | some s => some (JSON.str s)
  | none => some JSON.null

/-- A value that is a string or `undefined`. -/
def valOrUndefined : Option String → JSVal
  | some s => some (JSON.str s)
  | none => none

/-- The expression `x.replace(/\\"/g, '"')`: every backslash followed by a
double quote becomes a double quote. -/
def unescapeQuotes : List Char → List Char
  | [] => []
  | [c] => [c]
  | c :: d :: rest =>
      if c = Char.ofNat 92 ∧ d = Char.ofNat 34 then d :: unescapeQuotes rest
      else c :: unescapeQuotes (d :: rest)

/-- The method `URLSearchParams.has`. -/
def paramsHas (params : List (String × String)) (name : String) : Bool :=
  (params.lookup name).isSome

/-- The method `URLSearchParams.get`: the first value, or `null`. -/
def paramsGet (params : List (String × String)) (name : String) : Option String :=
  params.lookup name

/-- The method `URLSearchParams.set`: the first pair of that name takes the
value and the later ones go, or the pair is appended. -/
def paramsSet : List (String × String) → String → String → List (String × String)
  | [], k, v => [(k, v)]
  | (k1, v1) :: rest, k, v =>
      if k1 = k then (k, v) :: rest.filter (fun p => p.1 != k)
      else (k1, v1) :: paramsSet rest k v

/-- A parsed `URL`: what precedes the query, and the query parameters. -/
structure URL where
  base : String
  searchParams : List (String × String)

/-- The call `url.searchParams.set(name, value)`. -/
def URL.set (u : URL) (name value : String) : URL :=
  { u with searchParams := paramsSet u.searchParams name value }

/-- The `trimEnd` of lodash with one character to trim; a missing string counts as empty. -/
def trimEnd (s : Option String) (c : Char) : String :=
  String.mk ((s.getD "").data.rdropWhile (fun x => x == c))

/-- The `trim` of lodash with one character to trim; a missing string counts as empty. -/
def trim (s : Option String) (c : Char) : String :=
  String.mk (((s.getD "").data.dropWhile (fun x => x == c)).rdropWhile (fun x => x == c))

/-! ## The session store and the environment -/

/-- The session-scoped store: the item under `CODE_VERIFIER_STORAGE_KEY` and the
single pending nonce kept by `./utils`. -/
structure Session where
  verifier : Option String
  pendingNonce : Option String

/-- The function `getCodeVerifier`. -/
def getCodeVerifier (s : Session) : Option String :=
  s.verifier

/-- The function `clearCodeVerifier`. -/
def clearCodeVerifier (s : Session) : Session :=
  { s with verifier := none }

/-- The function `createCodeVerifier`, on the random bytes of the platform. -/
def createCodeVerifier (randomValues : List (Fin 256)) (s : Session) : String × Session :=
  (generateVerifierCode randomValues,
    { s with verifier := some (generateVerifierCode randomValues) })

/-- The body of the token request, before serialisation. -/
inductive RequestBody where
  | form (entries : List (String × String))
  | json (fields : List (String × JSVal))

/-- A `Response` of `fetch`: its `ok` flag and what `json()` resolves to, `none`
when `json()` rejects. -/
structure Response where
  ok : Bool
  json : Option JSON

/-- The platform and the imported helpers, as seen by one call. -/
structure Env where
  /-- The parameters of `document.location.search`. -/
  search : List (String × String)
  /-- The value of `document.location.origin`. -/
  origin : String
  /-- The value of `document.location.pathname`. -/
  pathname : String
  /-- The answer of `isInsecureProtocol()`. -/
  insecure : Bool
  /-- The helper `validateNonce` of `./utils`. -/
  validateNonce : JSVal → Session → Bool × Session
  /-- The helper `createNonce` of `./utils`. -/
  createNonce : Session → String × Session
  /-- The function `JSON.parse`, `none` for a SyntaxError. -/
  jsonParse : String → Option JSON
  /-- The function `JSON.stringify`. -/
  jsonStringify : JSON → String
  /-- The constructor `new URL(x)`, `none` for a TypeError. -/
  newURL : JSVal → Option URL
  /-- The bytes of `window.crypto.getRandomValues(new Uint8Array(128))`. -/
  randomValues : List (Fin 256)
  /-- The SHA-256 primitive. -/
  digest : String → List (Fin 256)
  /-- The discovery request `fetch(url)`, `none` when it rejects. -/
  fetchGet : String → Option Response
  /-- The token request `fetch(url, options)`, `none` when it rejects. -/
  fetchPost : URL → String → RequestBody → Option Response

/-- What a call does that can be observed from outside. The callback `cb` is
taken to return normally. -/
inductive Event where
  | replaceState (url : String)
  | fetchGet (url : String)
  | fetchPost (url : URL) (contentType : String) (body : RequestBody)
  | assign (url : URL)
  | callback (err : Option JSError) (result : Option (List (String × JSVal)))

/-- How a call ended. -/
inductive Completion where
  | returned
  | threw (e : JSError)
  deriving DecidableEq

/-! ## The authenticator -/

/-- The type `PkceConfig`. -/
structure PkceConfig where
  use_oidc : Bool
  base_url : Option String
  auth_endpoint : Option String
  auth_token_endpoint : Option String
  auth_token_endpoint_content_type : Option String
  app_id : Option String

/-- The fields of a `PkceAuthenticator` instance. -/
structure PkceAuthenticator where
  oidc_url : Option String
  auth_url : JSVal
  auth_token_url : JSVal
  auth_token_endpoint_content_type : Option String
  appID : Option String

/-- The constructor of `PkceAuthenticator`. -/
def PkceAuthenticator.constructor (config : PkceConfig) : PkceAuthenticator :=
  if config.use_oidc then
    { oidc_url := some (trimEnd config.base_url (Char.ofNat 47))
      auth_url := none
      auth_token_url := none
      auth_token_endpoint_content_type := config.auth_token_endpoint_content_type
      appID := config.app_id }
  else
    { oidc_url := none
      auth_url := some (JSON.str
        (trimEnd config.base_url (Char.ofNat 47) ++ "/" ++ trim config.auth_endpoint (Char.ofNat 47)))
      auth_token_url := some (JSON.str
        (trimEnd config.base_url (Char.ofNat 47) ++ "/" ++
          trim config.auth_token_endpoint (Char.ofNat 47)))
      auth_token_endpoint_content_type := config.auth_token_endpoint_content_type
      appID := config.app_id }

/-- The result of `_loadOidcConfig`: the requests made, the instance afterwards
and whether it returned or threw. -/
structure LoadResult where
  events : List Event
  self : PkceAuthenticator
  result : Except JSError Unit

/-- The method `_loadOidcConfig`. -/
def PkceAuthenticator._loadOidcConfig (self : PkceAuthenticator) (env : Env) : LoadResult :=
  if truthy self.auth_url && truthy self.auth_token_url then
    ⟨[], self, Except.ok ()⟩
  else
    match self.oidc_url with
    | none => ⟨[], self, Except.error (JSError.error "Missing auth URLs")⟩
    | some oidc_url =>
      if oidc_url = "" then ⟨[], self, Except.error (JSError.error "Missing auth URLs")⟩
      else
        match env.fetchGet (oidc_url ++ "/.well-known/openid-configuration") with
        | none =>
          ⟨[Event.fetchGet (oidc_url ++ "/.well-known/openid-configuration")], self,
            Except.error (JSError.error "Failed to load OIDC configuration")⟩
        | some response =>
          if !response.ok then
            ⟨[Event.fetchGet (oidc_url ++ "/.well-known/openid-configuration")], self,
              Except.error (JSError.error "Bad response while getting OIDC configuration")⟩
          else
            match response.json with
            | none =>
              ⟨[Event.fetchGet (oidc_url ++ "/.well-known/openid-configuration")], self,
                Except.error (JSError.error "Failed to parse OIDC configuration JSON")⟩
            | some json =>
              match getProp json "authorization_endpoint", getProp json "token_endpoint" with
              | Except.ok authorization_endpoint, Except.ok token_endpoint =>
                if !truthy authorization_endpoint || !truthy token_endpoint then
                  ⟨[Event.fetchGet (oidc_url ++ "/.well-known/openid-configuration")], self,
                    Except.error (JSError.error "OIDC configuration missing endpoint fields")⟩
                else
                  ⟨[Event.fetchGet (oidc_url ++ "/.well-known/openid-configuration")],
                    { self with auth_url := authorization_endpoint
                                auth_token_url := token_endpoint },
                    Except.ok ()⟩
              | Except.error e, _ =>
                ⟨[Event.fetchGet (oidc_url ++ "/.well-known/openid-configuration")], self,
                  Except.error e⟩
              | _, Except.error e =>
                ⟨[Event.fetchGet (oidc_url ++ "/.well-known/openid-configuration")], self,
                  Except.error e⟩

/-- The outcome of one of the two legs. -/
structure Outcome where
  events : List Event
  self : PkceAuthenticator
  session : Session
  completion : Completion

/-- The method `authenticate(options, cb)`, `scope` being `options.scope`. -/
def PkceAuthenticator.authenticate (self : PkceAuthenticator) (env : Env) (session : Session)
    (scope : Option String) : Outcome :=
  if env.insecure then
    ⟨[Event.callback (some (JSError.error "Cannot authenticate over insecure protocol!")) none],
      self, session, Completion.returned⟩
  else
    match (self._loadOidcConfig env).result with
    | Except.error err =>
      ⟨(self._loadOidcConfig env).events ++ [Event.callback (some err) none],
        (self._loadOidcConfig env).self, session, Completion.returned⟩
    | Except.ok _ =>
      match env.newURL (self._loadOidcConfig env).self.auth_url with
      | none =>
        ⟨(self._loadOidcConfig env).events, (self._loadOidcConfig env).self, session,
          Completion.threw JSError.typeError⟩
      | some authURL =>
        match createCodeChallenge env.digest
            (createCodeVerifier env.randomValues (env.createNonce session).2).1 with
        | none =>
          ⟨(self._loadOidcConfig env).events, (self._loadOidcConfig env).self,
            (createCodeVerifier env.randomValues (env.createNonce session).2).2,
            Completion.threw (JSError.error "InvalidCharacterError")⟩
        | some codeChallenge =>
          ⟨(self._loadOidcConfig env).events ++
              [Event.assign
                ((((((((authURL.set "client_id"
                    (strOrUndefined (self._loadOidcConfig env).self.appID)).set
                  "redirect_uri" (env.origin ++ env.pathname)).set
                  "response_type" "code").set
                  "scope" (strOrUndefined scope)).set
                  "state" (env.jsonStringify (JSON.obj
                    [("auth_type", JSON.str "pkce"),
                      ("nonce", JSON.str (env.createNonce session).1)]))).set
                  "code_challenge_method" "S256").set
                  "code_challenge" codeChallenge))],
            (self._loadOidcConfig env).self,
            (createCodeVerifier env.randomValues (env.createNonce session).2).2,
            Completion.returned⟩

/-- The expression `JSON.parse(text).nonce`; a `null` argument is parsed as the
text `null`. -/
def parseNonce (env : Env) (text : Option String) : Except JSError JSVal :=
  match env.jsonParse (strOrNull text) with
  | none => Except.error JSError.syntaxError
  | some v => getProp v "nonce"

/-- The `try`/`catch` of `completeAuth` that reads the nonce out of `state`:
whatever the first attempt throws, the second attempt runs on the unescaped
text, and what the second attempt throws escapes. -/
def stateNonce (env : Env) (state : Option String) : Except JSError JSVal :=
  match parseNonce env state with
  | Except.ok nonce => Except.ok nonce
  | Except.error _ =>
    match state with
    | none => Except.error JSError.typeError
    | some text => parseNonce env (some (String.mk (unescapeQuotes text.data)))

/-- The object `token_request_body_object`, serialised as the content type asks. -/
def tokenRequestBody (self : PkceAuthenticator) (env : Env) (session : Session)
    (contentType : String) : RequestBody :=
  if "application/x-www-form-urlencoded".data.isPrefixOf contentType.data then
    RequestBody.form
      [("client_id", strOrUndefined self.appID),
        ("code", strOrNull (paramsGet env.search "code")),
        ("grant_type", "authorization_code"),
        ("redirect_uri", env.origin ++ env.pathname),
        ("code_verifier", strOrNull (getCodeVerifier session))]
  else
    RequestBody.json
      [("client_id", valOrUndefined self.appID),
        ("code", valOrNull (paramsGet env.search "code")),
        ("grant_type", some (JSON.str "authorization_code")),
        ("redirect_uri", some (JSON.str (env.origin ++ env.pathname))),
        ("code_verifier", valOrNull (getCodeVerifier session))]

/-- The part of `completeAuth` inside `if (params.has('code'))`, entered with
the events so far and the session as `validateNonce` left it. -/
def PkceAuthenticator.exchangeCode (self : PkceAuthenticator) (env : Env) (session : Session)
    (events : List Event) : Outcome :=
  match (self._loadOidcConfig env).result with
  | Except.error err =>
    ⟨events ++ (self._loadOidcConfig env).events ++ [Event.callback (some err) none],
      (self._loadOidcConfig env).self, session, Completion.returned⟩
  | Except.ok _ =>
    match env.newURL (self._loadOidcConfig env).self.auth_token_url with
    | none =>
      ⟨events ++ (self._loadOidcConfig env).events, (self._loadOidcConfig env).self, session,
        Completion.threw JSError.typeError⟩
    | some authURL =>
      match (self._loadOidcConfig env).self.auth_token_endpoint_content_type with
      | none =>
        ⟨events ++ (self._loadOidcConfig env).events, (self._loadOidcConfig env).self, session,
          Completion.threw JSError.typeError⟩
      | some contentType =>
        match env.fetchPost authURL contentType
            (tokenRequestBody (self._loadOidcConfig env).self env session contentType) with
        | none =>
          ⟨events ++ (self._loadOidcConfig env).events ++
              [Event.fetchPost authURL contentType
                (tokenRequestBody (self._loadOidcConfig env).self env session contentType)],
            (self._loadOidcConfig env).self, session, Completion.threw JSError.networkError⟩
        | some response =>
          match response.json with
          | none =>
            ⟨events ++ (self._loadOidcConfig env).events ++
                [Event.fetchPost authURL contentType
                  (tokenRequestBody (self._loadOidcConfig env).self env session contentType)],
              (self._loadOidcConfig env).self, session, Completion.threw JSError.syntaxError⟩
          | some data =>
            match getProp data "access_token" with
            | Except.error e =>
              ⟨events ++ (self._loadOidcConfig env).events ++
                  [Event.fetchPost authURL contentType
                    (tokenRequestBody (self._loadOidcConfig env).self env session contentType)],
                (self._loadOidcConfig env).self, clearCodeVerifier session, Completion.threw e⟩
            | Except.ok access_token =>
              ⟨events ++ (self._loadOidcConfig env).events ++
                  [Event.fetchPost authURL contentType
                    (tokenRequestBody (self._loadOidcConfig env).self env session contentType),
                  Event.callback none (some (spreadToken access_token data))],
                (self._loadOidcConfig env).self, clearCodeVerifier session, Completion.returned⟩

/-- The method `completeAuth(cb)`. -/
def PkceAuthenticator.completeAuth (self : PkceAuthenticator) (env : Env) (session : Session) :
    Outcome :=
  if !paramsHas env.search "code" && !paramsHas env.search "error" then
    ⟨[Event.replaceState env.pathname], self, session, Completion.returned⟩
  else
    match stateNonce env (paramsGet env.search "state") with
    | Except.error e => ⟨[Event.replaceState env.pathname], self, session, Completion.threw e⟩
    | Except.ok nonce =>
      if !(env.validateNonce nonce session).1 then
        ⟨[Event.replaceState env.pathname,
            Event.callback (some (JSError.error "Invalid nonce")) none],
          self, (env.validateNonce nonce session).2, Completion.returned⟩
      else if paramsHas env.search "error" then
        ⟨[Event.replaceState env.pathname,
            Event.callback (some (JSError.error
              (strOrNull (paramsGet env.search "error") ++ ": " ++
                strOrNull (paramsGet env.search "error_description")))) none],
          self, (env.validateNonce nonce session).2, Completion.returned⟩
      else if paramsHas env.search "code" then
        self.exchangeCode env (env.validateNonce nonce session).2
          [Event.replaceState env.pathname]
      else
        ⟨[Event.replaceState env.pathname], self, (env.validateNonce nonce session).2,
          Completion.returned⟩

/-- An event that is a network request. -/
def Event.isRequest : Event → Bool
  | Event.fetchGet _ => true
  | Event.fetchPost _ _ _ => true
  | _ => false

/-- An event that is the token request. -/
def Event.isTokenRequest : Event → Bool
  | Event.fetchPost _ _ _ => true
  | _ => false

/-- An event that is an invocation of the callback. -/
def Event.isCallback : Event → Bool
  | Event.callback _ _ => true
  | _ => false

/-- An event that navigates the browser. -/
def Event.isNavigation : Event → Bool
  | Event.assign _ => true
  | _ => false

/-! ## The helpers of `./utils`, and a concrete page -/

/-- Modelled from the spec: `validateNonce` of `./utils`, whose source is not
part of the sources at hand. It compares the candidate against the pending
nonce, returns a boolean, and always clears the pending value. -/
def specValidateNonce (candidate : JSVal) (s : Session) : Bool × Session :=
  (match candidate, s.pendingNonce with
    | some (JSON.str c), some pending => decide (c = pending)
    | _, _ => false,
   { s with pendingNonce := none })

/-- Modelled from the spec: `createNonce` of `./utils`, whose source is not part
of the sources at hand. It records the generated value `fresh` as the single
pending nonce and returns it. -/
def specCreateNonce (fresh : String) (s : Session) : String × Session :=
  (fresh, { s with pendingNonce := some fresh })

/-- The text of the state `\x7b"auth_type":"pkce","nonce":"n1"\x7d`. -/
def stateText : String :=
  "\x7b\"auth_type\":\"pkce\",\"nonce\":\"n1\"\x7d"

/-- The answers of `JSON.parse` on the three texts that the examples meet. -/
def pageJsonParse (text : String) : Option JSON :=
  if text = "null" then some JSON.null
  else if text = stateText then
    some (JSON.obj [("auth_type", JSON.str "pkce"), ("nonce", JSON.str "n1")])
  else none

/-- The answer of `new URL` on an absolute https address without a query. -/
def pageNewURL : JSVal → Option URL
  | some (JSON.str s) =>
      if "https://".data.isPrefixOf s.data then some ⟨s, []⟩ else none
  | _ => none

/-- A page at `https://cms.example/admin/` called back with `search`, whose
token endpoint answers `tokenResponse`. -/
def pageEnv (search : List (String × String)) (insecure : Bool)
    (tokenResponse : Option Response) : Env :=
  { search := search
    origin := "https://cms.example"
    pathname := "/admin/"
    insecure := insecure
    validateNonce := specValidateNonce
    createNonce := specCreateNonce "n1"
    jsonParse := pageJsonParse
    jsonStringify := fun _ => stateText
    newURL := pageNewURL
    randomValues := List.replicate 128 0
    digest := fun _ => List.replicate 32 0
    fetchGet := fun _ => none
    fetchPost := fun _ _ _ => tokenResponse }

/-- An authenticator with static endpoints at `https://idp.example`. -/
def staticAuth (contentType : Option String) : PkceAuthenticator :=
  PkceAuthenticator.constructor
    { use_oidc := false
      base_url := some "https://idp.example/"
      auth_endpoint := some "/authorize"
      auth_token_endpoint := some "/token"
      auth_token_endpoint_content_type := contentType
      app_id := some "app" }

/-- An authenticator in OIDC mode for the issuer `https://idp.example`. -/
def oidcAuth : PkceAuthenticator :=
  PkceAuthenticator.constructor
    { use_oidc := true
      base_url := some "https://idp.example/"
      auth_endpoint := none
      auth_token_endpoint := none
      auth_token_endpoint_content_type := some "application/json"
      app_id := some "app" }

/-- The discovery document of the issuer `https://idp.example`. -/
def discoveryDocument : JSON :=
  JSON.obj
    [("authorization_endpoint", JSON.str "https://idp.example/auth"),
      ("token_endpoint", JSON.str "https://idp.example/token")]

/-- A page whose discovery request is answered with `discoveryDocument`. -/
def oidcEnv : Env :=
  { search := []
    origin := "https://cms.example"
    pathname := "/admin/"
    insecure := false
    validateNonce := specValidateNonce
    createNonce := specCreateNonce "n1"
    jsonParse := pageJsonParse
    jsonStringify := fun _ => stateText
    newURL := pageNewURL
    randomValues := List.replicate 128 0
    digest := fun _ => List.replicate 32 0
    fetchGet := fun _ => some ⟨true, some discoveryDocument⟩
    fetchPost := fun _ _ _ => none }

/-- A token response `\x7b"access_token":"abc","token_type":"bearer"\x7d`. -/
def bearerResponse : Response :=
  ⟨true, some (JSON.obj [("access_token", JSON.str "abc"), ("token_type", JSON.str "bearer")])⟩

/-- A token response `\x7b"access_token":"abc","token":"xyz"\x7d`, with a field
named `token` of its own. -/
def tokenFieldResponse : Response :=
  ⟨true, some (JSON.obj [("access_token", JSON.str "abc"), ("token", JSON.str "xyz")])⟩

/-- A session in which `authenticate` left the verifier `v1` and the nonce `n1`. -/
def pendingSession : Session :=
  { verifier := some "v1", pendingNonce := some "n1" }

/-! ## Facts about the generators -/

theorem chars_length : chars.length = 64 := by decide

theorem chars_alphabet : ∀ c ∈ chars, isVerifierAlphabet c = true := by decide

theorem chars_nodup : chars.Nodup := by decide

/-- Each residue modulo 64 is hit by exactly four byte values. -/
theorem count_mod_64 (j : Nat) (hj : j < 64) :
    (List.range 256).countP (fun b => decide (b % 64 = j)) = 4 := by
  have h := @Nat.count_modEq_card 256 64 (by norm_num) j
  have hcongr : (List.range 256).countP (fun b => decide (b % 64 = j))
      = Nat.count (fun b => b ≡ j [MOD 64]) 256 := by
    unfold Nat.count
    apply List.countP_congr
    intro b _
    simp [Nat.ModEq, Nat.mod_eq_of_lt hj]
  rw [hcongr, h]
  simp

theorem verifierChar_eq (v : Fin 256) :
    ∃ c, verifierChar v = some c ∧ c ∈ chars := by
  have hlt : v.val % chars.length < chars.length := by
    rw [chars_length]; omega
  exact ⟨chars[v.val % chars.length], by simp [verifierChar, hlt], List.getElem_mem _⟩

theorem joinChars_map_getElem? (rv : List (Fin 256)) :
    ∀ i : Nat, (joinChars (rv.map verifierChar))[i]? = rv[i]?.bind verifierChar := by
  induction rv with
  | nil => intro i; simp [joinChars]
  | cons v rest ih =>
    intro i
    obtain ⟨c, hc, _⟩ := verifierChar_eq v
    cases i with
    | zero => simp [joinChars, hc]
    | succ j => simpa [joinChars, hc] using ih j

theorem joinChars_map_length (rv : List (Fin 256)) :
    (joinChars (rv.map verifierChar)).length = rv.length := by
  induction rv with
  | nil => simp [joinChars]
  | cons v rest ih =>
    obtain ⟨c, hc, _⟩ := verifierChar_eq v
    simp [joinChars, hc, ih]

theorem joinChars_map_mem (rv : List (Fin 256)) :
    ∀ c ∈ joinChars (rv.map verifierChar), c ∈ chars := by
  induction rv with
  | nil => simp [joinChars]
  | cons v rest ih =>
    obtain ⟨c, hc, hmem⟩ := verifierChar_eq v
    intro d hd
    simp only [List.map_cons, hc, joinChars, List.mem_cons] at hd
    rcases hd with rfl | hd
    · exact hmem
    · exact ih d hd

theorem toNat_ofNat_byte (n : Nat) (h : n < 256) : (Char.ofNat n).toNat = n := by
  have hv : n.isValidChar := Or.inl (by omega)
  simp [Char.ofNat, hv, Char.ofNatAux, Char.toNat, UInt32.toNat]

theorem b64char_ne_pad : ∀ i, i < 64 → (b64char i != Char.ofNat 61) = true := by decide

theorem b64char_mem : ∀ i, i < 64 → b64char i ∈ b64chars := by decide

theorem b64chars_urlsafe : ∀ c ∈ b64chars,
    isBase64Url (if c = Char.ofNat 43 then Char.ofNat 45
      else if c = Char.ofNat 47 then Char.ofNat 95 else c) = true := by decide

theorem pad_not_ne : (Char.ofNat 61 != Char.ofNat 61) = false := by decide

/-- Before the padding, the base64 of `l` has `⌈4·|l|/3⌉` digits, all of the
base64 alphabet, and nothing but padding follows them. -/
theorem splitEqHead_btoaBytes (l : List Nat) (hl : ∀ x ∈ l, x < 256) :
    splitEqHead (btoaBytes l) = (btoaBytes l).filter (fun c => c != Char.ofNat 61) ∧
    (splitEqHead (btoaBytes l)).length = (4 * l.length + 2) / 3 ∧
    ∀ c ∈ splitEqHead (btoaBytes l), c ∈ b64chars := by
  induction l using btoaBytes.induct with
  | case1 a b c rest ih =>
    have ha : a < 256 := hl a (by simp)
    have hb : b < 256 := hl b (by simp)
    have hc : c < 256 := hl c (by simp)
    have hr : ∀ x ∈ rest, x < 256 := fun x hx => hl x (by simp [hx])
    obtain ⟨h1, h2, h3⟩ := ih hr
    have i1 : a / 4 < 64 := by omega
    have i2 : (a % 4) * 16 + b / 16 < 64 := by omega
    have i3 : (b % 16) * 4 + c / 64 < 64 := by omega
    have i4 : c % 64 < 64 := by omega
    have e1 := b64char_ne_pad _ i1
    have e2 := b64char_ne_pad _ i2
    have e3 := b64char_ne_pad _ i3
    have e4 := b64char_ne_pad _ i4
    unfold splitEqHead at h1 h2 h3 ⊢
    simp only [btoaBytes, List.takeWhile_cons, List.filter_cons, e1, e2, e3, e4, if_true,
      List.length_cons, List.mem_cons]
    refine ⟨by rw [h1], by rw [h2]; omega, ?_⟩
    intro d hd
    rcases hd with rfl | rfl | rfl | rfl | hd
    · exact b64char_mem _ i1
    · exact b64char_mem _ i2
    · exact b64char_mem _ i3
    · exact b64char_mem _ i4
    · exact h3 d hd
  | case2 a b =>
    have ha : a < 256 := hl a (by simp)
    have hb : b < 256 := hl b (by simp)
    have i1 : a / 4 < 64 := by omega
    have i2 : (a % 4) * 16 + b / 16 < 64 := by omega
    have i3 : (b % 16) * 4 < 64 := by omega
    have e1 := b64char_ne_pad _ i1
    have e2 := b64char_ne_pad _ i2
    have e3 := b64char_ne_pad _ i3
    unfold splitEqHead
    simp only [btoaBytes, List.takeWhile_cons, List.filter_cons, e1, e2, e3, if_true,
      pad_not_ne, List.length_cons, List.mem_cons, List.filter_nil, List.length_nil]
    refine ⟨by simp, by simp, ?_⟩
    intro d hd
    simp at hd
    rcases hd with rfl | rfl | rfl
    · exact b64char_mem _ i1
    · exact b64char_mem _ i2
    · exact b64char_mem _ i3
  | case3 a =>
    have ha : a < 256 := hl a (by simp)
    have i1 : a / 4 < 64 := by omega
    have i2 : (a % 4) * 16 < 64 := by omega
    have e1 := b64char_ne_pad _ i1
    have e2 := b64char_ne_pad _ i2
    unfold splitEqHead
    simp only [btoaBytes, List.takeWhile_cons, List.filter_cons, e1, e2, if_true,
      pad_not_ne, List.length_cons, List.mem_cons, List.filter_nil, List.length_nil]
    refine ⟨by simp, by simp, ?_⟩
    intro d hd
    simp at hd
    rcases hd with rfl | rfl
    · exact b64char_mem _ i1
    · exact b64char_mem _ i2
  | case4 =>
    simp [splitEqHead, btoaBytes]

theorem btoa_sha256 (digest : String → List (Fin 256)) (t : String) :
    btoa (sha256 digest t) = some (String.mk (btoaBytes ((digest t).map Fin.val))) := by
  have hmap : ((digest t).map (fun b => Char.ofNat b.val)).map Char.toNat
      = (digest t).map Fin.val := by
    rw [List.map_map]
    apply List.map_congr_left
    intro b _
    exact toNat_ofNat_byte b.val b.isLt
  have hall : ((digest t).map (fun b => Char.ofNat b.val)).all
      (fun c => decide (c.toNat < 256)) = true := by
    rw [List.all_eq_true]
    intro c hc
    obtain ⟨b, _, rfl⟩ := List.mem_map.mp hc
    simp [toNat_ofNat_byte b.val b.isLt]
  simp only [btoa, sha256, hall, if_true, hmap]

/-! ## Claims about the generators -/

/-- C5: on 128 random bytes `generateVerifierCode` returns a string of exactly
128 characters (hence between 43 and 128), whose i-th character is
`chars[byte_i % chars.length]` and so depends on the i-th byte alone, and
whose characters all belong to `A-Z a-z 0-9 - .`. -/
theorem generateVerifierCode_spec (rv : List (Fin 256)) (h : rv.length = 128) :
    (generateVerifierCode rv).length = 128 ∧
    43 ≤ (generateVerifierCode rv).length ∧ (generateVerifierCode rv).length ≤ 128 ∧
    (∀ i : Nat, (generateVerifierCode rv).data[i]? = rv[i]?.bind verifierChar) ∧
    (∀ rv2 : List (Fin 256), rv2.length = 128 → ∀ i : Nat, rv2[i]? = rv[i]? →
      (generateVerifierCode rv2).data[i]? = (generateVerifierCode rv).data[i]?) ∧
    (∀ c ∈ (generateVerifierCode rv).data, isVerifierAlphabet c = true) := by
  have hlen : (generateVerifierCode rv).length = 128 := by
    simp [generateVerifierCode, String.length, joinChars_map_length, h]
  refine ⟨hlen, by omega, by omega, ?_, ?_, ?_⟩
  · intro i
    simp only [generateVerifierCode]
    exact joinChars_map_getElem? rv i
  · intro rv2 _ i hi
    simp only [generateVerifierCode]
    rw [joinChars_map_getElem? rv2 i, joinChars_map_getElem? rv i, hi]
  · intro c hc
    exact chars_alphabet c (joinChars_map_mem rv c hc)

/-- Witness of C5: the all-zero byte sequence. -/
theorem generateVerifierCode_spec_witness :
    (List.replicate 128 (0 : Fin 256)).length = 128 ∧
    (generateVerifierCode (List.replicate 128 0)).length = 128 :=
  ⟨by simp, (generateVerifierCode_spec (List.replicate 128 0) (by simp)).1⟩

/-- C10: the length of the verifier alphabet divides 256, the alphabet has no
repeated character, and every character of it is the image under
`byte ↦ chars[byte % chars.length]` of exactly `256 / chars.length` byte values. -/
theorem verifierChar_unbiased :
    chars.length ∣ 256 ∧ chars.Nodup ∧
    ∀ c ∈ chars, ((List.finRange 256).filter
      (fun b => decide (verifierChar b = some c))).length = 256 / chars.length := by
  refine ⟨by rw [chars_length]; decide, chars_nodup, ?_⟩
  intro c hc
  obtain ⟨j, hj, rfl⟩ := List.getElem_of_mem hc
  have hj64 : j < 64 := by rw [← chars_length]; exact hj
  have hiff : ∀ b : Fin 256, (verifierChar b = some chars[j]) ↔ (b.val % 64 = j) := by
    intro b
    have hlt : b.val % chars.length < chars.length := by rw [chars_length]; omega
    simp only [verifierChar, List.getElem?_eq_getElem hlt, Option.some.injEq]
    rw [chars_nodup.getElem_inj_iff, chars_length]
  rw [← List.countP_eq_length_filter, chars_length]
  have hcount : (List.finRange 256).countP (fun b => decide (verifierChar b = some chars[j]))
      = (List.range 256).countP (fun b => decide (b % 64 = j)) := by
    rw [← List.map_coe_finRange, List.countP_map]
    apply List.countP_congr
    intro b _
    simp [hiff b]
  rw [hcount, count_mod_64 j hj64]

/-- C4: with SHA-256 a fixed function giving 32 bytes, `createCodeChallenge`
returns, for every verifier, the base64 of the digest without padding and with
plus and slash replaced by minus and underscore: a function of the verifier
only, 43 characters long, all in the base64url alphabet. -/
theorem createCodeChallenge_spec (digest : String → List (Fin 256))
    (hlen : ∀ t, (digest t).length = 32) (v : String) :
    ∃ s, createCodeChallenge digest v = some s ∧ s = base64UrlNoPad (digest v) ∧
      s.length = 43 ∧ ∀ c ∈ s.data, isBase64Url c = true := by
  have hb : ∀ x ∈ (digest v).map Fin.val, x < 256 := by
    intro x hx
    obtain ⟨b, _, rfl⟩ := List.mem_map.mp hx
    exact b.isLt
  obtain ⟨h1, h2, h3⟩ := splitEqHead_btoaBytes _ hb
  have hcomp : ∀ l : List Char, replaceSlash (replacePlus l)
      = l.map (fun c => if c = Char.ofNat 43 then Char.ofNat 45
          else if c = Char.ofNat 47 then Char.ofNat 95 else c) := by
    intro l
    simp only [replaceSlash, replacePlus, List.map_map]
    apply List.map_congr_left
    intro c _
    by_cases hc : c = Char.ofNat 43
    · subst hc; decide
    · simp [hc]
  refine ⟨_, by rw [createCodeChallenge, btoa_sha256], ?_, ?_, ?_⟩
  · simp only [hcomp, h1, base64UrlNoPad]
  · simp only [hcomp, String.length, List.length_map, h2, hlen]
  · intro c hc
    simp only [hcomp] at hc
    obtain ⟨d, hd, rfl⟩ := List.mem_map.mp hc
    exact b64chars_urlsafe d (h3 d hd)

/-- Witness of C4: a digest function that is constantly 32 zero bytes. -/
theorem createCodeChallenge_spec_witness :
    (∀ t : String, ((fun _ => List.replicate 32 (0 : Fin 256)) t).length = 32) ∧
    ∃ s, createCodeChallenge (fun _ => List.replicate 32 0) "verifier" = some s ∧
      s = base64UrlNoPad (List.replicate 32 0) ∧
      s.length = 43 ∧ ∀ c ∈ s.data, isBase64Url c = true :=
  ⟨fun _ => by simp,
    createCodeChallenge_spec (fun _ => List.replicate 32 0) (fun _ => by simp) "verifier"⟩

/-! ## Claims about the endpoint resolver -/

theorem truthy_str_append_slash (a b : String) :
    truthy (some (JSON.str (a ++ "/" ++ b))) = true := by
  have hne : a ++ "/" ++ b ≠ "" := by
    intro h
    have hl := congrArg String.length h
    simp only [String.length_append] at hl
    have h1 : "/".length = 1 := by decide
    have h2 : "".length = 0 := by decide
    omega
  simp [truthy, hne]

/-- When `_loadOidcConfig` returns, both endpoints are truthy. -/
theorem loadOidcConfig_ok_truthy (self : PkceAuthenticator) (env : Env)
    (h : (self._loadOidcConfig env).result = Except.ok ()) :
    (truthy (self._loadOidcConfig env).self.auth_url &&
      truthy (self._loadOidcConfig env).self.auth_token_url) = true := by
  revert h
  unfold PkceAuthenticator._loadOidcConfig
  repeat' split
  all_goals simp_all

theorem loadOidcConfig_of_truthy (self : PkceAuthenticator) (env : Env)
    (h : (truthy self.auth_url && truthy self.auth_token_url) = true) :
    self._loadOidcConfig env = ⟨[], self, Except.ok ()⟩ := by
  unfold PkceAuthenticator._loadOidcConfig
  simp [h]

/-- C9: `_loadOidcConfig` is idempotent. Once a call has returned without
throwing, every later call (in any environment) returns without a network
request and leaves the instance, hence `auth_url` and `auth_token_url`,
unchanged; and for a static configuration, whatever its `base_url` and
endpoints, the first call already does so. -/
theorem loadOidcConfig_idempotent :
    (∀ (self : PkceAuthenticator) (env : Env),
      (self._loadOidcConfig env).result = Except.ok () →
      ∀ env2 : Env, (self._loadOidcConfig env).self._loadOidcConfig env2
        = ⟨[], (self._loadOidcConfig env).self, Except.ok ()⟩) ∧
    (∀ (config : PkceConfig) (env : Env), config.use_oidc = false →
      (PkceAuthenticator.constructor config)._loadOidcConfig env
        = ⟨[], PkceAuthenticator.constructor config, Except.ok ()⟩) := by
  refine ⟨?_, ?_⟩
  · intro self env h env2
    exact loadOidcConfig_of_truthy _ env2 (loadOidcConfig_ok_truthy self env h)
  · intro config env hc
    apply loadOidcConfig_of_truthy
    simp [PkceAuthenticator.constructor, hc, truthy_str_append_slash]

/-- Witness of C9: a discovery that succeeds, and a static configuration
without any endpoint. -/
theorem loadOidcConfig_idempotent_witness :
    (oidcAuth._loadOidcConfig oidcEnv).result = Except.ok () ∧
    ((oidcAuth._loadOidcConfig oidcEnv).self._loadOidcConfig (pageEnv [] false none)).events
      = [] ∧
    ((PkceAuthenticator.constructor ⟨false, none, none, none, none, none⟩)._loadOidcConfig
        (pageEnv [] false none)).events = [] :=
  ⟨rfl,
    by rw [loadOidcConfig_idempotent.1 oidcAuth oidcEnv rfl (pageEnv [] false none)],
    by rw [loadOidcConfig_idempotent.2 ⟨false, none, none, none, none, none⟩
      (pageEnv [] false none) rfl]⟩

/-! ## Claims about `completeAuth` and `authenticate` -/

/-- C1: when the query has `code`, the nonce can be read out of `state` and
`validateNonce` rejects it, `completeAuth` invokes the callback exactly once,
with the error `Invalid nonce`, and makes no network request. -/
theorem completeAuth_invalid_nonce (self : PkceAuthenticator) (env : Env) (session : Session)
    (nonce : JSVal)
    (hcode : paramsHas env.search "code" = true)
    (hstate : stateNonce env (paramsGet env.search "state") = Except.ok nonce)
    (hinvalid : (env.validateNonce nonce session).1 = false) :
    (self.completeAuth env session).events
      = [Event.replaceState env.pathname,
          Event.callback (some (JSError.error "Invalid nonce")) none] ∧
    (self.completeAuth env session).events.filter Event.isCallback
      = [Event.callback (some (JSError.error "Invalid nonce")) none] ∧
    (∀ e ∈ (self.completeAuth env session).events, e.isRequest = false) ∧
    (self.completeAuth env session).completion = Completion.returned := by
  have hev : (self.completeAuth env session).events
      = [Event.replaceState env.pathname,
          Event.callback (some (JSError.error "Invalid nonce")) none] := by
    simp [PkceAuthenticator.completeAuth, hcode, hstate, hinvalid]
  refine ⟨hev, ?_, ?_, ?_⟩
  · rw [hev]; rfl
  · rw [hev]
    intro e he
    simp only [List.mem_cons, List.mem_singleton, List.not_mem_nil, or_false] at he
    rcases he with rfl | rfl <;> rfl
  · simp [PkceAuthenticator.completeAuth, hcode, hstate, hinvalid]

/-- Witness of C1: a callback carrying the nonce `n1` while the pending nonce
is another one. -/
theorem completeAuth_invalid_nonce_witness :
    paramsHas [("code", "c1"), ("state", stateText)] "code" = true ∧
    ((staticAuth (some "application/json")).completeAuth
        (pageEnv [("code", "c1"), ("state", stateText)] false none)
        ⟨some "v1", some "n0"⟩).events
      = [Event.replaceState "/admin/",
          Event.callback (some (JSError.error "Invalid nonce")) none] :=
  ⟨rfl,
    (completeAuth_invalid_nonce (staticAuth (some "application/json"))
      (pageEnv [("code", "c1"), ("state", stateText)] false none) ⟨some "v1", some "n0"⟩
      (some (JSON.str "n1")) rfl rfl rfl).1⟩

/-- C2, refuted as stated: on the query
`?error=access_denied&error_description=User%20cancelled`, which has no
`state`, both attempts to read the nonce throw, the TypeError of the second
escapes and the callback is never invoked; and with a `state` whose nonce is
not the pending one, the callback receives `Invalid nonce` instead of the
provider's error. -/
theorem completeAuth_error_needs_state :
    ((staticAuth (some "application/json")).completeAuth
        (pageEnv [("error", "access_denied"), ("error_description", "User cancelled")]
          false none) pendingSession).events = [Event.replaceState "/admin/"] ∧
    ((staticAuth (some "application/json")).completeAuth
        (pageEnv [("error", "access_denied"), ("error_description", "User cancelled")]
          false none) pendingSession).completion = Completion.threw JSError.typeError ∧
    ((staticAuth (some "application/json")).completeAuth
        (pageEnv [("error", "access_denied"), ("error_description", "User cancelled"),
          ("state", stateText)] false none) ⟨some "v1", some "n0"⟩).events
      = [Event.replaceState "/admin/",
          Event.callback (some (JSError.error "Invalid nonce")) none] :=
  ⟨rfl, rfl, rfl⟩

/-- C2, amended: when the query has `error` and the nonce can be read out of
`state`, `completeAuth` invokes the callback exactly once and makes no network
request; when `validateNonce` accepts the nonce the Error's message is the
`error` parameter, a colon and a blank, and the `error_description` parameter
(the text `null` when it is absent), and when `validateNonce` rejects the nonce
the message is `Invalid nonce` instead. -/
theorem completeAuth_provider_error (self : PkceAuthenticator) (env : Env) (session : Session)
    (nonce : JSVal)
    (herror : paramsHas env.search "error" = true)
    (hstate : stateNonce env (paramsGet env.search "state") = Except.ok nonce) :
    (self.completeAuth env session).events
      = [Event.replaceState env.pathname,
          Event.callback (some (JSError.error
            (if (env.validateNonce nonce session).1 = true then
              strOrNull (paramsGet env.search "error") ++ ": " ++
                strOrNull (paramsGet env.search "error_description")
            else "Invalid nonce"))) none] ∧
    (self.completeAuth env session).events.filter Event.isCallback
      = [Event.callback (some (JSError.error
            (if (env.validateNonce nonce session).1 = true then
              strOrNull (paramsGet env.search "error") ++ ": " ++
                strOrNull (paramsGet env.search "error_description")
            else "Invalid nonce"))) none] ∧
    (∀ e ∈ (self.completeAuth env session).events, e.isRequest = false) ∧
    (self.completeAuth env session).completion = Completion.returned := by
  have hev : (self.completeAuth env session).events
      = [Event.replaceState env.pathname,
          Event.callback (some (JSError.error
            (if (env.validateNonce nonce session).1 = true then
              strOrNull (paramsGet env.search "error") ++ ": " ++
                strOrNull (paramsGet env.search "error_description")
            else "Invalid nonce"))) none] := by
    by_cases hv : (env.validateNonce nonce session).1 = true
    · simp [PkceAuthenticator.completeAuth, herror, hstate, hv]
    · simp [PkceAuthenticator.completeAuth, herror, hstate, hv]
  refine ⟨hev, ?_, ?_, ?_⟩
  · rw [hev]; rfl
  · rw [hev]
    intro e he
    simp only [List.mem_cons, List.not_mem_nil, or_false] at he
    rcases he with rfl | rfl <;> rfl
  · by_cases hv : (env.validateNonce nonce session).1 = true
    · simp [PkceAuthenticator.completeAuth, herror, hstate, hv]
    · simp [PkceAuthenticator.completeAuth, herror, hstate, hv]

/-- Witness of the amended C2: the provider's `access_denied` with a state whose
nonce is the pending one, and with a state whose nonce is not. -/
theorem completeAuth_provider_error_witness :
    paramsHas [("error", "access_denied"), ("error_description", "User cancelled"),
      ("state", stateText)] "error" = true ∧
    ((staticAuth (some "application/json")).completeAuth
        (pageEnv [("error", "access_denied"), ("error_description", "User cancelled"),
          ("state", stateText)] false none) pendingSession).events
      = [Event.replaceState "/admin/",
          Event.callback (some (JSError.error "access_denied: User cancelled")) none] ∧
    ((staticAuth (some "application/json")).completeAuth
        (pageEnv [("error", "access_denied"), ("error_description", "User cancelled"),
          ("state", stateText)] false none) ⟨some "v1", some "n0"⟩).events
      = [Event.replaceState "/admin/",
          Event.callback (some (JSError.error "Invalid nonce")) none] :=
  ⟨rfl,
    (completeAuth_provider_error (staticAuth (some "application/json"))
      (pageEnv [("error", "access_denied"), ("error_description", "User cancelled"),
        ("state", stateText)] false none) pendingSession
      (some (JSON.str "n1")) rfl rfl).1,
    (completeAuth_provider_error (staticAuth (some "application/json"))
      (pageEnv [("error", "access_denied"), ("error_description", "User cancelled"),
        ("state", stateText)] false none) ⟨some "v1", some "n0"⟩
      (some (JSON.str "n1")) rfl rfl).1⟩

/-- C7, evaluated where it fails: with a valid code and nonce and static
endpoints, a token request that rejects makes the rejection escape
`completeAuth` with the callback never invoked; so does a missing token
content type, before any request is sent; and so does a query without `state`. -/
theorem completeAuth_exception_escapes :
    (((staticAuth (some "application/json")).completeAuth
        (pageEnv [("code", "c1"), ("state", stateText)] false none)
        pendingSession).events.filter Event.isCallback = [] ∧
      ((staticAuth (some "application/json")).completeAuth
        (pageEnv [("code", "c1"), ("state", stateText)] false none)
        pendingSession).completion = Completion.threw JSError.networkError) ∧
    (((staticAuth none).completeAuth
        (pageEnv [("code", "c1"), ("state", stateText)] false none)
        pendingSession).events = [Event.replaceState "/admin/"] ∧
      ((staticAuth none).completeAuth
        (pageEnv [("code", "c1"), ("state", stateText)] false none)
        pendingSession).completion = Completion.threw JSError.typeError) ∧
    (((staticAuth (some "application/json")).completeAuth
        (pageEnv [("code", "c1")] false none) pendingSession).events
        = [Event.replaceState "/admin/"] ∧
      ((staticAuth (some "application/json")).completeAuth
        (pageEnv [("code", "c1")] false none) pendingSession).completion
        = Completion.threw JSError.typeError) :=
  ⟨⟨rfl, rfl⟩, ⟨rfl, rfl⟩, ⟨rfl, rfl⟩⟩

/-- C8, refuted as stated: after `Invalid nonce` the verifier `v1` is still in
the session store, and so it is after a token request that rejected. -/
theorem completeAuth_keeps_verifier_on_failure :
    (((staticAuth (some "application/json")).completeAuth
        (pageEnv [("code", "c1"), ("state", stateText)] false none)
        ⟨some "v1", some "n0"⟩).events
        = [Event.replaceState "/admin/",
            Event.callback (some (JSError.error "Invalid nonce")) none] ∧
      getCodeVerifier ((staticAuth (some "application/json")).completeAuth
        (pageEnv [("code", "c1"), ("state", stateText)] false none)
        ⟨some "v1", some "n0"⟩).session = some "v1") ∧
    getCodeVerifier ((staticAuth (some "application/json")).completeAuth
        (pageEnv [("code", "c1"), ("state", stateText)] false none)
        pendingSession).session = some "v1" :=
  ⟨⟨rfl, rfl⟩, rfl⟩

theorem lookup_cons_eq {α : Type} (rest : List (String × α)) (k1 k2 : String) (v1 : α) :
    ((k1, v1) :: rest).lookup k2 = if k2 = k1 then some v1 else rest.lookup k2 := by
  by_cases h : k2 = k1
  · have hb : (k2 == k1) = true := by simp [h]
    simp [List.lookup, hb, h]
  · have hb : (k2 == k1) = false := by simp [h]
    simp [List.lookup, hb, h]

theorem lookup_objSet {α : Type} (acc : List (String × α)) (k k2 : String) (v : α) :
    (objSet acc k v).lookup k2 = if k2 = k then some v else acc.lookup k2 := by
  induction acc with
  | nil => simp [objSet, lookup_cons_eq]
  | cons p rest ih =>
    obtain ⟨k1, v1⟩ := p
    by_cases h1 : k1 = k
    · subst h1
      simp only [objSet, if_true, lookup_cons_eq]
      by_cases h2 : k2 = k1 <;> simp [h2]
    · simp only [objSet, h1, if_false, lookup_cons_eq, ih]
      by_cases h2 : k2 = k1
      · have h3 : ¬ k2 = k := fun e => h1 (h2.symm.trans e)
        simp [h2, h3, h1]
      · simp [h2]

/-- The fields copied by a spread win over what the literal held before, and
the other properties stay. -/
theorem lookup_spread (fields : List (String × JSON)) :
    (fields.map Prod.fst).Nodup → ∀ acc : List (String × JSVal),
    (∀ k v, (k, v) ∈ fields →
      (fields.foldl (fun acc p => objSet acc p.1 (some p.2)) acc).lookup k = some (some v)) ∧
    (∀ k, k ∉ fields.map Prod.fst →
      (fields.foldl (fun acc p => objSet acc p.1 (some p.2)) acc).lookup k = acc.lookup k) := by
  induction fields with
  | nil => intro _ acc; simp
  | cons p rest ih =>
    intro hnd acc
    obtain ⟨k1, v1⟩ := p
    simp only [List.map_cons, List.nodup_cons] at hnd
    obtain ⟨hnot, hrest⟩ := hnd
    have ih2 := ih hrest (objSet acc k1 (some v1))
    constructor
    · intro k v hmem
      simp only [List.mem_cons, Prod.mk.injEq] at hmem
      simp only [List.foldl_cons]
      rcases hmem with ⟨rfl, rfl⟩ | hmem
      · rw [ih2.2 k hnot, lookup_objSet]
        simp
      · exact ih2.1 k v hmem
    · intro k hk
      simp only [List.map_cons, List.mem_cons, not_or] at hk
      simp only [List.foldl_cons]
      rw [ih2.2 k hk.2, lookup_objSet]
      simp [hk.1]

theorem loadOidcConfig_events (self : PkceAuthenticator) (env : Env) :
    ∀ e ∈ (self._loadOidcConfig env).events, ∃ url, e = Event.fetchGet url := by
  unfold PkceAuthenticator._loadOidcConfig
  repeat' split
  all_goals simp

/-- C3, refuted as stated: a token response with a field named `token` of its
own gives a result whose `token` is that field, not `access_token`. -/
theorem completeAuth_token_field_wins :
    ((staticAuth (some "application/json")).completeAuth
        (pageEnv [("code", "c1"), ("state", stateText)] false (some tokenFieldResponse))
        pendingSession).events.filter Event.isCallback
      = [Event.callback none
          (some [("token", some (JSON.str "xyz")), ("access_token", some (JSON.str "abc"))])] :=
  rfl

/-- C3, amended: on the success path, with the token endpoint returning the
JSON object `fields`, `completeAuth` reports exactly one `cb(null, result)` in
which every field of `fields` appears with its value unchanged, and in which
`token` is `access_token` of `fields` when `fields` has no field named `token`. -/
theorem completeAuth_success_result (self : PkceAuthenticator) (env : Env) (session : Session)
    (nonce : JSVal) (authURL : URL) (contentType : String) (response : Response)
    (fields : List (String × JSON))
    (hcode : paramsHas env.search "code" = true)
    (herror : paramsHas env.search "error" = false)
    (hstate : stateNonce env (paramsGet env.search "state") = Except.ok nonce)
    (hvalid : (env.validateNonce nonce session).1 = true)
    (hload : (self._loadOidcConfig env).result = Except.ok ())
    (hurl : env.newURL (self._loadOidcConfig env).self.auth_token_url = some authURL)
    (htype : (self._loadOidcConfig env).self.auth_token_endpoint_content_type
      = some contentType)
    (hfetch : env.fetchPost authURL contentType
      (tokenRequestBody (self._loadOidcConfig env).self env
        (env.validateNonce nonce session).2 contentType) = some response)
    (hjson : response.json = some (JSON.obj fields))
    (hkeys : (fields.map Prod.fst).Nodup) :
    ∃ result : List (String × JSVal),
      (self.completeAuth env session).events.filter Event.isCallback
        = [Event.callback none (some result)] ∧
      (self.completeAuth env session).completion = Completion.returned ∧
      (∀ k v, (k, v) ∈ fields → result.lookup k = some (some v)) ∧
      ("token" ∉ fields.map Prod.fst →
        result.lookup "token" = some (fields.lookup "access_token")) := by
  refine ⟨spreadToken (fields.lookup "access_token") (JSON.obj fields), ?_, ?_, ?_, ?_⟩
  · have hl : (self._loadOidcConfig env).events.filter Event.isCallback = [] := by
      rw [List.filter_eq_nil_iff]
      intro e he
      obtain ⟨url, rfl⟩ := loadOidcConfig_events self env e he
      simp [Event.isCallback]
    simp [PkceAuthenticator.completeAuth, PkceAuthenticator.exchangeCode, hcode, herror,
      hstate, hvalid, hload, hurl, htype, hfetch, hjson, getProp, List.filter_append, hl,
      Event.isCallback]
  · simp [PkceAuthenticator.completeAuth, PkceAuthenticator.exchangeCode, hcode, herror,
      hstate, hvalid, hload, hurl, htype, hfetch, hjson, getProp]
  · intro k v hmem
    exact (lookup_spread fields hkeys [("token", fields.lookup "access_token")]).1 k v hmem
  · intro hno
    have h := (lookup_spread fields hkeys [("token", fields.lookup "access_token")]).2
      "token" hno
    simpa [spreadToken, ownEntries, List.lookup] using h

/-- Witness of the amended C3: the response `bearerResponse` gives the result
with `token`, `access_token` and `token_type`. -/
theorem completeAuth_success_result_witness :
    paramsHas [("code", "c1"), ("state", stateText)] "code" = true ∧
    ((staticAuth (some "application/json")).completeAuth
        (pageEnv [("code", "c1"), ("state", stateText)] false (some bearerResponse))
        pendingSession).events.filter Event.isCallback
      = [Event.callback none
          (some [("token", some (JSON.str "abc")), ("access_token", some (JSON.str "abc")),
            ("token_type", some (JSON.str "bearer"))])] ∧
    ∃ result : List (String × JSVal),
      ((staticAuth (some "application/json")).completeAuth
        (pageEnv [("code", "c1"), ("state", stateText)] false (some bearerResponse))
        pendingSession).events.filter Event.isCallback
        = [Event.callback none (some result)] ∧
      result.lookup "token" = some (some (JSON.str "abc")) :=
  ⟨rfl, rfl,
    (completeAuth_success_result (staticAuth (some "application/json"))
      (pageEnv [("code", "c1"), ("state", stateText)] false (some bearerResponse))
      pendingSession (some (JSON.str "n1")) ⟨"https://idp.example/token", []⟩
      "application/json" bearerResponse
      [("access_token", JSON.str "abc"), ("token_type", JSON.str "bearer")]
      rfl rfl rfl rfl rfl rfl rfl rfl rfl (by decide)).imp
      (fun _ h => ⟨h.1, h.2.2.2 (by decide)⟩)⟩

/-- C6, refuted as stated: on a page where `isInsecureProtocol()` reports true,
a callback with a valid code and nonce makes `completeAuth` send the POST that
carries the code `c1` to the token endpoint. -/
theorem completeAuth_posts_when_insecure :
    (pageEnv [("code", "c1"), ("state", stateText)] true (some bearerResponse)).insecure
      = true ∧
    ((staticAuth (some "application/json")).completeAuth
        (pageEnv [("code", "c1"), ("state", stateText)] true (some bearerResponse))
        pendingSession).events.filter Event.isTokenRequest
      = [Event.fetchPost ⟨"https://idp.example/token", []⟩ "application/json"
          (RequestBody.json
            [("client_id", some (JSON.str "app")),
              ("code", some (JSON.str "c1")),
              ("grant_type", some (JSON.str "authorization_code")),
              ("redirect_uri", some (JSON.str "https://cms.example/admin/")),
              ("code_verifier", some (JSON.str "v1"))])] :=
  ⟨rfl, rfl⟩

/-- C6, amended: whenever `isInsecureProtocol()` reports true, `authenticate`
only reports `Cannot authenticate over insecure protocol!`, with no navigation,
no network request and the session untouched; `completeAuth` does not consult
`isInsecureProtocol()`, and sends the POST carrying the code only when the
query has `code` and `validateNonce` accepted the nonce read out of `state`. -/
theorem insecure_protocol_gate (self : PkceAuthenticator) (env : Env) (session : Session)
    (scope : Option String) (hinsecure : env.insecure = true) :
    (self.authenticate env session scope).events
      = [Event.callback
          (some (JSError.error "Cannot authenticate over insecure protocol!")) none] ∧
    (∀ e ∈ (self.authenticate env session scope).events,
      e.isNavigation = false ∧ e.isRequest = false) ∧
    (self.authenticate env session scope).session = session ∧
    (∀ e ∈ (self.completeAuth env session).events, e.isTokenRequest = true →
      paramsHas env.search "code" = true ∧
      ∃ nonce, stateNonce env (paramsGet env.search "state") = Except.ok nonce ∧
        (env.validateNonce nonce session).1 = true) := by
  refine ⟨by simp [PkceAuthenticator.authenticate, hinsecure], ?_,
    by simp [PkceAuthenticator.authenticate, hinsecure], ?_⟩
  · intro e he
    simp only [PkceAuthenticator.authenticate, hinsecure, if_true, List.mem_singleton] at he
    subst he
    exact ⟨rfl, rfl⟩
  · intro e he htok
    unfold PkceAuthenticator.completeAuth at he
    split at he
    · simp only [List.mem_singleton] at he
      subst he
      simp [Event.isTokenRequest] at htok
    · split at he
      · simp only [List.mem_singleton] at he
        subst he
        simp [Event.isTokenRequest] at htok
      · rename_i nonce hnonce
        split at he
        · simp only [List.mem_cons, List.not_mem_nil, or_false] at he
          rcases he with rfl | rfl <;> simp [Event.isTokenRequest] at htok
        · rename_i hv
          split at he
          · simp only [List.mem_cons, List.not_mem_nil, or_false] at he
            rcases he with rfl | rfl <;> simp [Event.isTokenRequest] at htok
          · split at he
            · rename_i hc
              exact ⟨hc, nonce, hnonce, by simpa using hv⟩
            · simp only [List.mem_singleton] at he
              subst he
              simp [Event.isTokenRequest] at htok

/-- Witness of the amended C6: `authenticate` on an insecure page. -/
theorem insecure_protocol_gate_witness :
    (pageEnv [] true none).insecure = true ∧
    ((staticAuth (some "application/json")).authenticate (pageEnv [] true none)
        ⟨none, none⟩ (some "repo")).events
      = [Event.callback
          (some (JSError.error "Cannot authenticate over insecure protocol!")) none] :=
  ⟨rfl,
    (insecure_protocol_gate (staticAuth (some "application/json")) (pageEnv [] true none)
      ⟨none, none⟩ (some "repo") rfl).1⟩

/-- What `exchangeCode` does to the session: a reported result comes with the
verifier cleared, a reported error with the session untouched. -/
theorem exchangeCode_session (self : PkceAuthenticator) (env : Env) (session : Session)
    (events : List Event) (hev : ∀ e ∈ events, e.isCallback = false) :
    (∀ r, Event.callback none (some r) ∈ (self.exchangeCode env session events).events →
      (self.exchangeCode env session events).session = clearCodeVerifier session) ∧
    (∀ err, Event.callback (some err) none ∈ (self.exchangeCode env session events).events →
      (self.exchangeCode env session events).session = session) := by
  have hl : ∀ e ∈ (self._loadOidcConfig env).events, e.isCallback = false := by
    intro e he
    obtain ⟨url, rfl⟩ := loadOidcConfig_events self env e he
    rfl
  have hno : ∀ (a : Option JSError) (b : Option (List (String × JSVal))),
      Event.callback a b ∉ events ∧ Event.callback a b ∉ (self._loadOidcConfig env).events := by
    intro a b
    exact ⟨fun h => by simpa [Event.isCallback] using hev _ h,
      fun h => by simpa [Event.isCallback] using hl _ h⟩
  unfold PkceAuthenticator.exchangeCode
  repeat' split
  all_goals simp [hno]

/-- C8, amended: for every `completeAuth` invocation that reaches nonce
validation, a reported result (the success path) comes with the pending code
verifier removed from the session store, and a reported error (`Invalid nonce`,
a provider error, an OIDC configuration failure) leaves the session store as
`validateNonce` left it, the verifier not removed by `completeAuth`. -/
theorem completeAuth_verifier_fate (self : PkceAuthenticator) (env : Env) (session : Session)
    (nonce : JSVal)
    (hreach : paramsHas env.search "code" = true ∨ paramsHas env.search "error" = true)
    (hstate : stateNonce env (paramsGet env.search "state") = Except.ok nonce) :
    (∀ r, Event.callback none (some r) ∈ (self.completeAuth env session).events →
      getCodeVerifier (self.completeAuth env session).session = none) ∧
    (∀ err, Event.callback (some err) none ∈ (self.completeAuth env session).events →
      (self.completeAuth env session).session = (env.validateNonce nonce session).2) := by
  have hx := exchangeCode_session self env (env.validateNonce nonce session).2
    [Event.replaceState env.pathname] (by intro e he; simp at he; subst he; rfl)
  have hguard : (!paramsHas env.search "code" && !paramsHas env.search "error") = false := by
    rcases hreach with h | h <;> simp [h]
  unfold PkceAuthenticator.completeAuth
  simp only [hguard, hstate]
  by_cases hv : (env.validateNonce nonce session).1 = true
  · by_cases he : paramsHas env.search "error" = true
    · simp [hv, he]
    · have hc : paramsHas env.search "code" = true := by
        rcases hreach with h | h
        · exact h
        · exact absurd h he
      simp only [hv, he, hc, Bool.not_true, if_true, if_false, Bool.false_eq_true]
      refine ⟨fun r hr => ?_, hx.2⟩
      rw [hx.1 r hr]
      rfl
  · simp [hv]

/-- Witness of the amended C8: the success path, after which no verifier is stored. -/
theorem completeAuth_verifier_fate_witness :
    paramsHas [("code", "c1"), ("state", stateText)] "code" = true ∧
    getCodeVerifier ((staticAuth (some "application/json")).completeAuth
        (pageEnv [("code", "c1"), ("state", stateText)] false (some bearerResponse))
        pendingSession).session = none :=
  ⟨rfl,
    (completeAuth_verifier_fate (staticAuth (some "application/json"))
      (pageEnv [("code", "c1"), ("state", stateText)] false (some bearerResponse))
      pendingSession (some (JSON.str "n1")) (Or.inl rfl) rfl).1
      [("token", some (JSON.str "abc")), ("access_token", some (JSON.str "abc")),
        ("token_type", some (JSON.str "bearer"))]
      (List.mem_filter.mp
        (show Event.callback none
            (some [("token", some (JSON.str "abc")), ("access_token", some (JSON.str "abc")),
              ("token_type", some (JSON.str "bearer"))])
          ∈ ((staticAuth (some "application/json")).completeAuth
              (pageEnv [("code", "c1"), ("state", stateText)] false (some bearerResponse))
              pendingSession).events.filter Event.isCallback
          from List.mem_singleton_self _)).1⟩

end PkceOAuth
